import Mathlib

/-
Verification of the force-displacement test rig control software
(`printer_force_displacement`): a shallow embedding of the force-sample
decoding protocol (`threaded_force_meter.py`), the direction algebra
(`direction.py`) and the motion-control / test engine (`force_gauge.py`),
together with proofs and refutations of the specified properties.

Modelling conventions:
* Force readings, distances and timestamps are `Rat`.  The Python code
  compares floats against exact constants (`0`, `3.5`, `4.9`, `.001`); all
  decoded gauge values have at most three fractional decimal digits, so no
  comparison relevant to the verified properties is sensitive to binary
  floating-point rounding and `Rat` is a faithful model.
* The asynchronous force stream is a feed `f : Nat → Rat`; `get_force()`
  consumes the sample at the current read index and advances the index.
  `print(...)` statements that call `self.get_force()` inside an f-string
  also consume one sample and are modelled as index increments.
* Unbounded `while` loops are given an explicit fuel argument; running out
  of fuel yields the distinguished result `MRes.more` ("the Python loop is
  still running"), never a fabricated answer.
* A raised `ValueError` is modelled as `MRes.raise`/`Except.error`; the
  mutable object state at the moment of the raise is returned unchanged,
  matching Python semantics (the exception propagates, the object keeps the
  state it had).
-/

namespace ForceDisp

/-- Movement directions, from `direction.py` (`class Direction(Enum)`). -/
inductive Direction where
  | UP
  | DOWN
  | STILL
deriving DecidableEq, Repr

open Direction

/-- Direction.flip from `direction.py`. -/
def Direction.flip : Direction → Direction
  | DOWN => UP
  | UP => DOWN
  | STILL => STILL

/-- Direction.sign from `direction.py`: DOWN ↦ -1, UP ↦ 1, STILL ↦ 0. -/
def Direction.sign : Direction → Int
  | DOWN => -1
  | UP => 1
  | STILL => 0

/-- sign(v) for numbers, from `force_gauge.py` lines 17-22 (the
`isinstance(v, Direction)` branch is modelled by passing `Direction.sign`
directly where the Python code passes a `Direction`). -/
def sign (v : Rat) : Int :=
  if v = 0 then 0 else if v < 0 then -1 else 1

/-- zero(v) from `force_gauge.py` line 24. -/
def zero (v : Rat) : Bool := decide (v = 0)

/-- nonzero(v) from `force_gauge.py` line 25. -/
def nonzero (v : Rat) : Bool := decide (v ≠ 0)

/-- zeroeps(v) from `force_gauge.py` lines 27-29: true iff |v| ≤ .001. -/
def zeroeps (v : Rat) : Bool := decide (|v| ≤ 1 / 1000)

/-- nonzeroeps(v) from `force_gauge.py` lines 31-33: true iff |v| > .001. -/
def nonzeroeps (v : Rat) : Bool := decide (1 / 1000 < |v|)

/-- oppsign(cmp)(testval) from `force_gauge.py` lines 36-39; `cmp` is the
sign of the comparison value (for a `Direction` argument the Python
`sign()` returns `Direction.sign`). -/
def oppsign (cmp : Int) (testval : Rat) : Bool := decide (cmp + sign testval = 0)

/-- samesign(cmp)(testval) from `force_gauge.py` lines 42-43. -/
def samesign (cmp : Int) (testval : Rat) : Bool := decide (cmp = sign testval)

/-- oppsign_or_zero(cmp)(testval) from `force_gauge.py` lines 46-49. -/
def oppsign_or_zero (cmp : Int) (testval : Rat) : Bool :=
  zero testval || oppsign cmp testval

/-- samesign_or_zero(cmp)(testval) from `force_gauge.py` lines 52-53. -/
def samesign_or_zero (cmp : Int) (testval : Rat) : Bool :=
  zero testval || samesign cmp testval

/-- samedir(direction, force) from `force_gauge.py` lines 68-69:
`oppsign(direction.flip())(force)`. -/
def samedir (d : Direction) (force : Rat) : Bool := oppsign d.flip.sign force

/-- oppdir(direction, force) from `force_gauge.py` lines 64-65. -/
def oppdir (d : Direction) (force : Rat) : Bool := oppsign d.sign force

/-- oppdir_or_zero(direction, force) from `force_gauge.py` lines 56-57. -/
def oppdir_or_zero (d : Direction) (force : Rat) : Bool :=
  oppsign_or_zero d.sign force

/-- samedir_or_zero(direction, force) from `force_gauge.py` lines 60-61. -/
def samedir_or_zero (d : Direction) (force : Rat) : Bool :=
  oppsign_or_zero d.flip.sign force

/-- inc2dir(inc, direction) from `direction.py` lines 31-34:
`abs(inc) * direction.sign`.  The Python function asserts
`direction in (UP, DOWN)`; the assertion is modelled at the call sites
(`move_z`, `move_z_until`) which fail when the direction is STILL. -/
def inc2dir (inc : Rat) (d : Direction) : Rat := |inc| * (d.sign : Rat)

/-- force2dir(force) from `direction.py` lines 37-42. -/
def force2dir (force : Rat) : Direction :=
  if force = 0 then STILL else if force < 0 then DOWN else UP

/-- DEFAULT_FEEDRATE from `force_gauge.py` line 13. -/
def DEFAULT_FEEDRATE : Rat := 180

/-- MIN_Z_MOVE from `ender_fdm/force_gauge.py` line 15. -/
def MIN_Z_MOVE : Rat := 1 / 10

/-!
## Stabilization sampling: `FDMeter.stable_force`

`ender_fdm/force_gauge.py` lines 198-212.  The Python loop state is
`(last, same, count)`; the loop raises when `count + 1 >= max_n` at the end
of an iteration.  The recursion below is structural on
`remaining = max_n - count` (the raise fires exactly when
`remaining ≤ 1`), so the function is kernel-computable.  The error value
carries the index of the next unread sample (the raise consumes one more
sample than it checks), so callers that catch the error can resume reading
the same feed.
-/

/-- The while-loop of `stable_force` (`ender_fdm/force_gauge.py` lines
204-211).  State: `remaining = max_n - count`, `last`, `same`, and `idx`,
the index of the next feed sample to read. -/
def stableGo (nSame : Nat) (f : Nat → Rat) :
    Nat → Rat → Nat → Nat → Except Nat (Rat × Nat)
  | remaining, last, same, idx =>
    if nSame ≤ same then Except.ok (last, idx)
    else
      match remaining with
      | 0 => Except.error (idx + 1)
      | 1 => Except.error (idx + 1)
      | r + 2 =>
        stableGo nSame f (r + 1)
          (if f idx = last then last else f idx)
          (if f idx = last then same + 1 else 0)
          (idx + 1)

/-- FDMeter.stable_force(n_same, max_n) from `ender_fdm/force_gauge.py`
lines 198-212, reading samples `f idx, f (idx+1), ...`.  Returns the
stabilized value and the next unread index, or the next unread index on
the `Max samples exceeded` ValueError. -/
def stable_force (nSame maxN : Nat) (f : Nat → Rat) (idx : Nat) :
    Except Nat (Rat × Nat) :=
  stableGo nSame f maxN (f idx) 0 (idx + 1)

/-- Length of the maximal constant run of feed values ending at index `i`.
Specification-side notion used to characterise `stable_force`. -/
def runlen (f : Nat → Rat) : Nat → Nat
  | 0 => 1
  | i + 1 => if f (i + 1) = f i then runlen f i + 1 else 1

/-- The least index `i < n` at which a constant run of length `nSame + 1`
is complete, if any.  Specification-side notion used to characterise
`stable_force`. -/
def firstStable (nSame : Nat) (f : Nat → Rat) : Nat → Option Nat
  | 0 => none
  | n + 1 =>
    match firstStable nSame f n with
    | some i => some i
    | none => if nSame + 1 ≤ runlen f n then some n else none

/-- Feed used to refute the claim that `n_same` consecutive equal samples
suffice for `stable_force` to return: three 5-readings followed by
alternating noise in which no two consecutive samples are equal. -/
def cex1 : Nat → Rat := fun i => if i < 3 then 5 else if i % 2 = 0 then 7 else 9

/-- Feed on which `stable_force 3 20` succeeds: four equal samples then
zeroes. -/
def wfeed : Nat → Rat := fun i => if i < 4 then 5 else 0

/-!
## The stream decoder: `ThreadedForceMeter`

Two variants exist in the repository: `ender_fdm/threaded_force_meter.py`
(with overload guard, timestamp and a ready-guard on the decode step) and
the legacy top-level `threaded_force_meter.py` (no overload guard, no
timestamp, and no ready-guard on the decode step).  Both are embedded.
Bytes are modelled as `Nat` (values of a Python `bytearray`); 0x2d is the
ASCII minus sign, 0x2e the dot.
-/

/-- Bytes of the serial stream (elements of a Python bytearray). -/
abbrev Byte := Nat

/-- Test for an ASCII digit byte. -/
def isDigit (b : Byte) : Bool := decide (48 ≤ b ∧ b ≤ 57)

/-- Numeric value of a most-significant-first ASCII digit string. -/
def digitsToNat (bs : List Byte) : Nat := bs.foldl (fun acc b => acc * 10 + (b - 48)) 0

/-- Python `float()` applied to an unsigned decimal byte string:
`digits`, `digits.`, `.digits` or `digits.digits`.  Returns `none` where
Python raises ValueError.  (Exponents, whitespace, inf/nan are never
produced by the gauge and are not modelled.) -/
def pyFloatCore (bs : List Byte) : Option Rat :=
  let intPart := bs.takeWhile isDigit
  match bs.dropWhile isDigit with
  | [] => if intPart.isEmpty then none else some (digitsToNat intPart)
  | 0x2e :: frac =>
    if frac.all isDigit ∧ (intPart ≠ [] ∨ frac ≠ []) then
      some ((digitsToNat intPart : Rat) + (digitsToNat frac : Rat) / (10 ^ frac.length))
    else none
  | _ => none

/-- Python `float()` applied to a (possibly signed) decimal byte string,
as used on the 6-byte records sliced from the gauge stream. -/
def pyFloat (bs : List Byte) : Option Rat :=
  match bs with
  | 0x2d :: rest => (pyFloatCore rest).map (fun r => -r)
  | 0x2b :: rest => pyFloatCore rest
  | _ => pyFloatCore bs

/-- MAX_FORCE from `ender_fdm/threaded_force_meter.py` line 14. -/
def MAX_FORCE : Rat := 7 / 2

/-- State of `ThreadedForceMeter` from `ender_fdm/threaded_force_meter.py`
lines 17-23 (the `transport` handle is not modelled; `time()` values are
supplied by the caller as `now`).  `_value = none` models the initial
Python `None`. -/
structure Meter where
  buffer : List Byte
  _value : Option Rat
  timestamp : Rat
  new_value : Bool
  ready : Bool
deriving DecidableEq, Repr

/-- Fresh `ThreadedForceMeter.__init__` state (timestamp 0 as in line 21). -/
def Meter.init : Meter :=
  { buffer := [], _value := none, timestamp := 0, new_value := false, ready := false }

/-- The `value` property setter from `ender_fdm/threaded_force_meter.py`
lines 65-71.  The Bool is true iff the ValueError (OverloadError) was
raised; the guard fires before any field is written, so on a raise the
returned state is the input state. -/
def set_value (m : Meter) (now v : Rat) : Bool × Meter :=
  if MAX_FORCE ≤ |v| then (true, m)
  else (false, { m with timestamp := now, _value := some v, new_value := true })

/-- ThreadedForceMeter.data_received from `ender_fdm/threaded_force_meter.py`
lines 32-49.  The Bool is true iff a ValueError escaped (float parse
failure or the overload guard); in that case the buffer keeps the aligned
contents (the slice assignment on line 49 is never reached). -/
def data_received (m : Meter) (now : Rat) (data : List Byte) : Bool × Meter :=
  let buf0 := m.buffer ++ data
  let aligned : List Byte × Bool :=
    if m.ready then (buf0, true)
    else if (0x2d : Byte) ∈ buf0 then (buf0.drop (buf0.indexOf 0x2d), true)
    else if 6 < buf0.length then (buf0.drop 6, false)
    else (buf0, false)
  let buf := aligned.1
  let rdy := aligned.2
  if rdy ∧ 6 ≤ buf.length then
    let rest_pos := 6 * (buf.length / 6)
    match pyFloat ((buf.drop (rest_pos - 6)).take 6) with
    | none => (true, { m with buffer := buf, ready := rdy })
    | some v =>
      match set_value { m with buffer := buf, ready := rdy } now v with
      | (true, m2) => (true, m2)
      | (false, m2) => (false, { m2 with buffer := buf.drop rest_pos })
  else (false, { m with buffer := buf, ready := rdy })

namespace Legacy

/-- State of the legacy `ThreadedForceMeter` from `threaded_force_meter.py`
lines 5-10 (no timestamp field). -/
structure Meter where
  buffer : List Byte
  _value : Option Rat
  new_value : Bool
  ready : Bool
deriving DecidableEq, Repr

/-- Fresh legacy `ThreadedForceMeter.__init__` state. -/
def Meter.init : Meter :=
  { buffer := [], _value := none, new_value := false, ready := false }

/-- The legacy `value` property setter from `threaded_force_meter.py`
lines 52-55: publishes unconditionally, with no overload guard. -/
def set_value (m : Meter) (v : Rat) : Meter :=
  { m with _value := some v, new_value := true }

/-- Legacy ThreadedForceMeter.data_received from `threaded_force_meter.py`
lines 19-36.  Identical alignment logic to the ender_fdm variant, but the
decode step on line 33 checks only `len(self.buffer) >= 6` — it is not
guarded by `self.ready`.  The Bool is true iff `float()` raised. -/
def data_received (m : Meter) (data : List Byte) : Bool × Meter :=
  let buf0 := m.buffer ++ data
  let aligned : List Byte × Bool :=
    if m.ready then (buf0, true)
    else if (0x2d : Byte) ∈ buf0 then (buf0.drop (buf0.indexOf 0x2d), true)
    else if 6 < buf0.length then (buf0.drop 6, false)
    else (buf0, false)
  let buf := aligned.1
  let rdy := aligned.2
  if 6 ≤ buf.length then
    let rest_pos := 6 * (buf.length / 6)
    match pyFloat ((buf.drop (rest_pos - 6)).take 6) with
    | none => (true, { m with buffer := buf, ready := rdy })
    | some v =>
      (false, { set_value { m with buffer := buf, ready := rdy } v with
                  buffer := buf.drop rest_pos })
  else (false, { m with buffer := buf, ready := rdy })

end Legacy

/-- The ASCII bytes of `1230.0000.000`: thirteen bytes with no minus sign,
fed to the legacy decoder in one `data_received` call. -/
def cexBytes : List Byte :=
  [0x31, 0x32, 0x33, 0x30, 0x2e, 0x30, 0x30, 0x30, 0x30, 0x2e, 0x30, 0x30, 0x30]

/-!
## The motion controller: `FDMeter`

State of an `FDMeter` instance (`ender_fdm/force_gauge.py` lines 120-132)
restricted to the fields the verified operations read or write.  `z` is a
Python float initialised to `float('inf')`; `none` models that infinity.
G-code commands written to the printer serial port are accumulated in a
log, so that "no motion command is issued" is expressible.
-/

/-- Relevant mutable fields of `FDMeter`. -/
structure MState where
  z : Option Rat
  zeroed : Bool
  fine_inc : Rat
  coarse_inc : Rat
deriving DecidableEq, Repr

/-- A G-code command sent by `FDMeter.G` (only the motion-relevant ones
are distinguished; the `M300` beep prefix strings of the smooth test are
not modelled). -/
inductive GCmd where
  | g0 (dist : Rat) (feedrate : Option Rat)
  | m400
deriving DecidableEq, Repr

/-- Execution context threaded through the control loops: the next unread
feed index, the `FDMeter` state and the log of emitted G-code commands. -/
structure Ctx where
  idx : Nat
  st : MState
  log : List GCmd
deriving DecidableEq, Repr

/-- FDMeter.move_z from `ender_fdm/force_gauge.py` lines 227-240: no-op
when `inc == 0`; otherwise sends one `G0 Z...` command (plus `M400` when
waiting) and adds the signed increment to `z` only when `zeroed`.  Returns
`none` when the `inc2dir` assertion fails (direction STILL with a nonzero
increment). -/
def move_z (inc : Rat) (d : Direction) (feedrate : Option Rat) (wait : Bool)
    (c : Ctx) : Option Ctx :=
  if inc = 0 then some c
  else if d = STILL then none
  else
    let i := inc2dir inc d
    some { c with
             log := c.log ++ [GCmd.g0 i feedrate] ++ (if wait then [GCmd.m400] else []),
             st := { c.st with
                       z := if c.st.zeroed then c.st.z.map (fun zv => zv + i) else c.st.z } }

/-- The in-loop overload abort test of `FDMeter.move_z_until`
(`ender_fdm/force_gauge.py` lines 258 and 271): `abs(force) > 4.9`. -/
def force_too_high (force : Rat) : Bool := decide ((49 : Rat) / 10 < |force|)

/-- The loop bound test `abs(dist) <= max_move`; `none` models the default
`max_move=float('inf')`. -/
def le_max_move (dist : Rat) : Option Rat → Bool
  | none => true
  | some m => decide (|dist| ≤ m)

/-- Outcome of a fuelled control loop: a normal return, a propagating
ValueError, or fuel exhaustion (`more`: the Python loop is still running,
with the loop state reached so far). -/
inductive MRes (α : Type) where
  | ok (a : α)
  | raise (msg : String)
  | more (a : α)
deriving DecidableEq, Repr

/-- True iff the result is `more` (the loop outran the fuel). -/
def MRes.isMore {α : Type} : MRes α → Bool
  | .more _ => true
  | _ => false

/-- The accumulated distance of a `move_z_until` outcome (`none` when the
call raised). -/
def mzu_dist : MRes (Rat × Ctx) → Option Rat
  | .ok (d, _) => some d
  | .more (d, _) => some d
  | .raise _ => none

/-- The two stepping loops of `FDMeter.move_z_until`
(`ender_fdm/force_gauge.py` lines 257-263 with `stable = false`, lines
270-276 with `stable = true`).  Loop body order follows the source:
overload check, `dist += inc`, `move_z`, re-sample (plain `get_force` in
the first loop, `stable_force` — whose ValueError propagates — in the
second). -/
def until_loop (f : Nat → Rat) (inc : Rat) (d : Direction) (test : Rat → Bool)
    (max_move : Option Rat) (stable : Bool) :
    Nat → Rat → Rat → Ctx → MRes (Rat × Rat × Ctx)
  | fuel, dist, force, c =>
    if le_max_move dist max_move && !(test force) then
      if force_too_high force then .raise "Force too high, aborting"
      else
        match fuel with
        | 0 => .more (dist, force, c)
        | fuel + 1 =>
          match move_z inc d none true c with
          | none => .raise "assert direction in UP DOWN"
          | some c2 =>
            if stable then
              match stable_force 3 20 f c2.idx with
              | .error _ => .raise "Max samples exceeded, readings never stabilized"
              | .ok (v, idx2) =>
                until_loop f inc d test max_move stable fuel (dist + inc) v
                  { c2 with idx := idx2 }
            else
              until_loop f inc d test max_move stable fuel (dist + inc) (f c2.idx)
                { c2 with idx := c2.idx + 1 }
    else .ok (dist, force, c)

/-- FDMeter.move_z_until from `ender_fdm/force_gauge.py` lines 243-281:
initial `stable_force` read with the ValueError caught (falling back to
one plain `get_force`), the fast loop, then an unguarded `stable_force`
re-check and, if that reading still fails the test, the slow loop. -/
def move_z_until (f : Nat → Rat) (inc0 : Rat) (d : Direction) (test : Rat → Bool)
    (max_move : Option Rat) (fuel : Nat) (c : Ctx) : MRes (Rat × Ctx) :=
  if d = STILL then .raise "assert direction in UP DOWN"
  else
    let inc := inc2dir inc0 d
    let start : Rat × Ctx :=
      match stable_force 3 20 f c.idx with
      | .ok (v, idx2) => (v, { c with idx := idx2 })
      | .error idx2 => (f idx2, { c with idx := idx2 + 1 })
    match until_loop f inc d test max_move false fuel 0 start.1 start.2 with
    | .raise msg => .raise msg
    | .more (dist, _, c1) => .more (dist, c1)
    | .ok (dist, _, c1) =>
      match stable_force 3 20 f c1.idx with
      | .error _ => .raise "Max samples exceeded, readings never stabilized"
      | .ok (force2, idx2) =>
        if test force2 then .ok (dist, { c1 with idx := idx2 })
        else
          match until_loop f inc d test max_move true fuel dist force2
              { c1 with idx := idx2 } with
          | .raise msg => .raise msg
          | .more (dist2, _, c3) => .more (dist2, c3)
          | .ok (dist2, _, c3) => .ok (dist2, c3)

/-- The step update on line 305 of `ender_fdm/force_gauge.py`
(`inc = min(inc / 2, MIN_Z_MOVE)` inside `FDMeter.move_to_zero`). -/
def move_to_zero_step (inc : Rat) : Rat := min (inc / 2) MIN_Z_MOVE

/-- The while-loop of `FDMeter.move_to_zero` (`ender_fdm/force_gauge.py`
lines 304-311): while the freshly read force is nonzero, update the step
with `move_to_zero_step`, flip the classified direction of the reading and
run `move_z_until` with test `samesign_or_zero(direction)` and
`max_move = min(5, abs(coarse_inc * 10))`. -/
def mtz_loop (f : Nat → Rat) (fuel : Nat) (inc moved : Rat) (c : Ctx) :
    MRes (Rat × Ctx) :=
  let force := f c.idx
  let c1 := { c with idx := c.idx + 1 }
  if force = 0 then .ok (moved, c1)
  else
    let inc2 := move_to_zero_step inc
    let dirn := (force2dir force).flip
    match move_z_until f inc2 dirn (samesign_or_zero dirn.sign)
        (some (min 5 |c.st.coarse_inc * 10|)) fuel c1 with
    | .raise msg => .raise msg
    | .more (d, c2) => .more (moved + d, c2)
    | .ok (d, c2) =>
      match fuel with
      | 0 => .more (moved + d, c2)
      | fu + 1 => mtz_loop f fu inc2 (moved + d) c2

/-- FDMeter.move_to_zero from `ender_fdm/force_gauge.py` lines 300-313.
`inc? = none` models the default `inc=None`; a supplied 0 also falls back
to `fine_inc` because Python evaluates `inc or self.fine_inc`. -/
def move_to_zero (f : Nat → Rat) (inc? : Option Rat) (fuel : Nat) (c : Ctx) :
    MRes (Rat × Ctx) :=
  let inc0 := (match inc? with
    | some v => if v = 0 then c.st.fine_inc else v
    | none => c.st.fine_inc) * 2
  mtz_loop f fuel inc0 0 c

/-- FDMeter.zero_z_axis from `ender_fdm/force_gauge.py` lines 316-354:
initial `move_to_zero`, residual-force check (raising `Uh-oh` after an
unstable or stably nonzero reading), unbounded coarse approach, the
`Stopped zeroing but force is 0` check, coarse backoff, unbounded fine
approach, establishing `z = 0` / `zeroed`, and the optional fine backoff.
The f-string prints on lines 336, 342, 350 and 354 each consume one feed
sample via `self.get_force()` and are modelled as index increments. -/
def zero_z_axis (f : Nat → Rat) (d : Direction) (backoff : Bool) (fuel : Nat)
    (c : Ctx) : MRes Ctx :=
  match move_to_zero f none fuel c with
  | .raise msg => .raise msg
  | .more (_, c1) => .more c1
  | .ok (_, c1) =>
    let fA := f c1.idx
    let c2 := { c1 with idx := c1.idx + 1 }
    let afterCheck : MRes Ctx :=
      if fA ≠ 0 then
        match stable_force 3 20 f c2.idx with
        | .error _ => .raise "Max samples exceeded, readings never stabilized"
        | .ok (fs, idx2) =>
          if fs ≠ 0 then .raise "Uh-oh, force still nonzero"
          else .ok { c2 with idx := idx2 }
      else .ok c2
    match afterCheck with
    | .raise msg => .raise msg
    | .more c3 => .more c3
    | .ok c3 =>
      match move_z_until f c3.st.coarse_inc d nonzeroeps none fuel c3 with
      | .raise msg => .raise msg
      | .more (_, c4) => .more c4
      | .ok (_, c4) =>
        let fB := f c4.idx
        let c5 := { c4 with idx := c4.idx + 1 }
        let zeroCheck : MRes Ctx :=
          if fB = 0 then
            match stable_force 3 20 f c5.idx with
            | .error _ => .raise "Max samples exceeded, readings never stabilized"
            | .ok (fs, idx2) =>
              if fs = 0 then .raise "Stopped zeroing but force is 0"
              else .ok { c5 with idx := idx2 }
          else .ok c5
        match zeroCheck with
        | .raise msg => .raise msg
        | .more c6 => .more c6
        | .ok c6 =>
          let c7 := { c6 with idx := c6.idx + 1 }
          match move_to_zero f (some c7.st.coarse_inc) fuel c7 with
          | .raise msg => .raise msg
          | .more (_, c8) => .more c8
          | .ok (_, c8) =>
            let c9 := { c8 with idx := c8.idx + 1 }
            match move_z_until f c9.st.fine_inc d nonzeroeps none fuel c9 with
            | .raise msg => .raise msg
            | .more (_, c10) => .more c10
            | .ok (_, c10) =>
              let c11 := { c10 with st := { c10.st with z := some 0, zeroed := true } }
              if backoff then
                let c12 := { c11 with idx := c11.idx + 1 }
                match move_to_zero f (some c12.st.fine_inc) fuel c12 with
                | .raise msg => .raise msg
                | .more (_, c13) => .more c13
                | .ok (_, c13) => .ok { c13 with idx := c13.idx + 1 }
              else .ok { c11 with idx := c11.idx + 1 }

/-!
## The test engine: `TestResult`, careful test, smooth test
-/

/-- FDMeter.avg_force from `ender_fdm/force_gauge.py` lines 192-195:
read `n` samples and return their average, together with the next unread
index.  (Python would divide by zero for `n = 0`; `Rat` division by zero
yields 0, and no caller uses `n = 0`.) -/
def avg_force (f : Nat → Rat) (n : Nat) (idx : Nat) : Rat × Nat :=
  let vals := (List.range n).map (fun k => f (idx + k))
  (vals.sum / (vals.length : Rat), idx + n)

/-- TestResult from `ender_fdm/force_gauge.py` lines 72-80.  The Python
defaults `z = float('inf')` and `displacement = float('inf')` are modelled
as `none`. -/
structure TestResult where
  timestamp : Rat
  direction : Direction
  force : Rat
  test_type : String
  z : Option Rat
  displacement : Option Rat
  testno : Int
deriving DecidableEq, Repr

/-- The `move_one` closure of `FDMeter.careful_move_test`
(`ender_fdm/force_gauge.py` lines 416-430): append one TestResult holding
the current displacement and a fresh `avg_force` reading, step by `z_inc`,
advance the displacement and return the reading.  `time()` is modelled by
the clock feed sampled at the current read index.  `none` propagates the
`inc2dir` assertion failure from `move_z`. -/
def careful_move_one (f clock : Nat → Rat) (n_samples : Nat) (test_no : Int)
    (z_inc : Rat) (d : Direction) (displacement : Rat) (data : List TestResult)
    (c : Ctx) : Option (Rat × Rat × List TestResult × Ctx) :=
  let av := avg_force f n_samples c.idx
  let tr : TestResult :=
    { timestamp := clock c.idx, direction := d, force := av.1,
      test_type := "careful", z := c.st.z, displacement := some displacement,
      testno := test_no }
  match move_z z_inc d none true { c with idx := av.2 } with
  | none => none
  | some c2 => some (av.1, displacement + z_inc, data ++ [tr], c2)

/-- The minimum-displacement loop of `FDMeter.careful_move_test`
(`ender_fdm/force_gauge.py` lines 442-443): step while
`abs(displacement) < abs(min_displacement)`. -/
def careful_loop1 (f clock : Nat → Rat) (n_samples : Nat) (test_no : Int)
    (z_inc : Rat) (d : Direction) (min_displacement : Rat) :
    Nat → Rat → Rat → List TestResult → Ctx →
    MRes (Rat × Rat × List TestResult × Ctx)
  | fuel, displacement, fprev, data, c =>
    if decide (|displacement| < |min_displacement|) then
      match fuel with
      | 0 => .more (displacement, fprev, data, c)
      | fuel + 1 =>
        match careful_move_one f clock n_samples test_no z_inc d displacement data c with
        | none => .raise "assert direction in UP DOWN"
        | some (f2, d2, data2, c2) =>
          careful_loop1 f clock n_samples test_no z_inc d min_displacement
            fuel d2 f2 data2 c2
    else .ok (displacement, fprev, data, c)

/-- The main stepping loop of `FDMeter.careful_move_test`
(`ender_fdm/force_gauge.py` lines 445-446): step while
`(f != 0 or samedir(direction, f)) and abs(displacement) < stop_after`. -/
def careful_loop2 (f clock : Nat → Rat) (n_samples : Nat) (test_no : Int)
    (z_inc : Rat) (d : Direction) (stop_after : Rat) :
    Nat → Rat → Rat → List TestResult → Ctx →
    MRes (Rat × Rat × List TestResult × Ctx)
  | fuel, displacement, fprev, data, c =>
    if (decide (fprev ≠ 0) || samedir d fprev) && decide (|displacement| < stop_after) then
      match fuel with
      | 0 => .more (displacement, fprev, data, c)
      | fuel + 1 =>
        match careful_move_one f clock n_samples test_no z_inc d displacement data c with
        | none => .raise "assert direction in UP DOWN"
        | some (f2, d2, data2, c2) =>
          careful_loop2 f clock n_samples test_no z_inc d stop_after
            fuel d2 f2 data2 c2
    else .ok (displacement, fprev, data, c)

/-- FDMeter.careful_move_test from `ender_fdm/force_gauge.py` lines
396-462: argument check, optional initial `move_to_zero`, pre-move by
`fine_inc` until `nonzero`, one sample consumed by the f-string print on
line 436, the two stepping loops, final `move_to_zero` when the last
reading is nonzero, and the optional return move. -/
def careful_move_test (f clock : Nat → Rat) (z_inc0 : Rat) (d : Direction)
    (n_samples : Nat) (test_no : Int) (return_to_zero : Bool)
    (stop_after min_displacement : Rat) (fuel : Nat) (c : Ctx) :
    MRes (List TestResult × Ctx) :=
  if decide (|stop_after| < |min_displacement|) then
    .raise "abs min_displacement must be at most abs stop_after"
  else
    let f0 := f c.idx
    let cA := { c with idx := c.idx + 1 }
    match (if f0 ≠ 0 then move_to_zero f none fuel cA else .ok (0, cA)) with
    | .raise msg => .raise msg
    | .more (_, cB) => .more ([], cB)
    | .ok (_, cB) =>
      let z_inc := inc2dir z_inc0 d
      match move_z_until f cB.st.fine_inc d nonzero none fuel cB with
      | .raise msg => .raise msg
      | .more (_, cC) => .more ([], cC)
      | .ok (_, cC) =>
        let cD := { cC with idx := cC.idx + 1 }
        match careful_loop1 f clock n_samples test_no z_inc d min_displacement
            fuel 0 f0 [] cD with
        | .raise msg => .raise msg
        | .more (_, _, data, cE) => .more (data, cE)
        | .ok (disp1, f1, data1, cE) =>
          match careful_loop2 f clock n_samples test_no z_inc d stop_after
              fuel disp1 f1 data1 cE with
          | .raise msg => .raise msg
          | .more (_, _, data, cF) => .more (data, cF)
          | .ok (disp2, f2, data2, cF) =>
            match (if f2 ≠ 0 then move_to_zero f none fuel cF else .ok (0, cF)) with
            | .raise msg => .raise msg
            | .more (_, cG) => .more (data2, cG)
            | .ok (_, cG) =>
              if return_to_zero then
                match move_z disp2 d.flip (some DEFAULT_FEEDRATE) true cG with
                | none => .raise "assert direction in UP DOWN"
                | some cH => .ok (data2, cH)
              else .ok (data2, cG)

/-- The sampling loop of `FDMeter.smooth_move_test`
(`ender_fdm/force_gauge.py` lines 492-501): while the classified direction
of the last recorded force equals the test direction, read one timestamped
sample and append a TestResult (`z` and `displacement` left at their
`float('inf')` defaults).  The guard reads `data[-1].force`; since each
iteration appends the row holding the sample it just read, that last force
is threaded explicitly as `lastF` (initially the force of the initial
row), keeping the loop guard first-order. -/
def smooth_loop (f ts : Nat → Rat) (d : Direction) (test_no : Int) :
    Nat → Rat → List TestResult → Ctx → MRes (List TestResult × Ctx)
  | fuel, lastF, data, c =>
    if force2dir lastF = d then
      match fuel with
      | 0 => .more (data, c)
      | fuel + 1 =>
        smooth_loop f ts d test_no fuel (f c.idx)
          (data ++ [{ timestamp := ts c.idx, direction := d, force := f c.idx,
                      test_type := "smooth", z := none, displacement := none,
                      testno := test_no }])
          { c with idx := c.idx + 1 }
    else .ok (data, c)

/-- FDMeter.smooth_move_test from `ender_fdm/force_gauge.py` lines
465-520: optional zeroing without backoff, the initial TestResult at
displacement 0, one non-blocking `move_z` through the signed target
displacement, the sampling loop until the classified direction flips, an
`M400` wait, the final confirmatory sample recorded with the full signed
target as its displacement, and the optional return move.  `now` models
the `time()` call of the initial row; `ts` is the gauge timestamp feed
read by `get_tsforce` alongside the force feed. -/
def smooth_move_test (f ts : Nat → Rat) (now : Rat) (target : Rat) (d : Direction)
    (return_to_zero : Bool) (feedrate : Rat) (test_no : Int) (zero_z : Bool)
    (fuel : Nat) (c : Ctx) : MRes (List TestResult × Ctx) :=
  match (if zero_z then zero_z_axis f d false fuel c else .ok c) with
  | .raise msg => .raise msg
  | .more c0 => .more ([], c0)
  | .ok c0 =>
    let data0 : List TestResult :=
      [{ timestamp := now, direction := d, force := f c0.idx,
         test_type := "smooth", z := c0.st.z, displacement := some 0,
         testno := test_no }]
    let c1 := { c0 with idx := c0.idx + 1 }
    let target2 := inc2dir target d
    match move_z target2 d (some feedrate) false c1 with
    | none => .raise "assert direction in UP DOWN"
    | some c2 =>
      match smooth_loop f ts d test_no fuel (f c0.idx) data0 c2 with
      | .raise msg => .raise msg
      | .more (data, c3) => .more (data, c3)
      | .ok (data, c3) =>
        let c4 := { c3 with log := c3.log ++ [GCmd.m400] }
        let fin : TestResult :=
          { timestamp := ts c4.idx, direction := d, force := f c4.idx,
            test_type := "smooth", z := c4.st.z, displacement := some target2,
            testno := test_no }
        let c5 := { c4 with idx := c4.idx + 1 }
        let data2 := data ++ [fin]
        if return_to_zero then
          match move_z target2 d.flip (some DEFAULT_FEEDRATE) true c5 with
          | none => .raise "assert direction in UP DOWN"
          | some c6 => .ok (data2, c6)
        else .ok (data2, c5)

/-!
## Concrete instances used by witnesses and counterexamples
-/

/-- Unzeroed `FDMeter` state with the default increments
(`z_fine_inc=.1`, `z_coarse_inc=.5`). -/
def mst0 : MState := { z := none, zeroed := false, fine_inc := 1/10, coarse_inc := 1/2 }

/-- Fresh context: feed index 0, unzeroed state, empty command log. -/
def c0 : Ctx := { idx := 0, st := mst0, log := [] }

/-- Zeroed `FDMeter` state at `z = 0`. -/
def mstZ : MState := { z := some 0, zeroed := true, fine_inc := 1/10, coarse_inc := 1/2 }

/-- Context in the zeroed state. -/
def cZ : Ctx := { idx := 0, st := mstZ, log := [] }

/-- The everywhere-zero force feed (no contact is ever made). -/
def zf : Nat → Rat := fun _ => 0

/-- A force feed for `zero_z_axis`: zero at rest, a stable contact burst
during the coarse approach, then zero again, so that the
`Stopped zeroing but force is 0` check fires. -/
def cfeed : Nat → Rat := fun i => if i < 2 then 0 else if i < 10 then 1 else 0

/-- Wall-clock feed used where `time()` is sampled. -/
def clock1 : Nat → Rat := fun i => (i : Rat)

/-- A constant opposing force feed for the careful-test loop: the test
direction is UP but the gauge keeps reading -1. -/
def oppfeed : Nat → Rat := fun _ => -1

/-- A smooth-test force feed whose classified direction is DOWN for the
first sample and UP afterwards (flip at sample index 1). -/
def sfeed : Nat → Rat := fun i => if i = 0 then -1 else 1

/-- Published-meter instance: `Meter.init` after value 1 is published at
time 1. -/
def mPub : Meter :=
  { Meter.init with timestamp := 1, _value := some 1, new_value := true }

/-!
## Theorems
-/

/-- C3: for every decoded value whose magnitude reaches `MAX_FORCE` the
setter raises the overload ValueError and leaves the whole meter state —
stored value, timestamp and new-value flag — unchanged, publishing
nothing; conversely every decoded value below the threshold is published
(value stored, timestamp refreshed, new-value flag set). -/
theorem set_value_overload_guard_spec (m : Meter) (now v : Rat) :
    (MAX_FORCE ≤ |v| → set_value m now v = (true, m)) ∧
    (|v| < MAX_FORCE →
      set_value m now v =
        (false, { m with timestamp := now, _value := some v, new_value := true })) := by
  constructor
  · intro h
    simp [set_value, h]
  · intro h
    simp [set_value, not_le.mpr h]

/-- Witness for C3 at the concrete inputs 4 (overload) and 1 (published). -/
theorem set_value_overload_guard_spec_witness :
    set_value Meter.init 1 4 = (true, Meter.init) ∧
    set_value Meter.init 1 1 =
      (false, { Meter.init with timestamp := 1, _value := some 1, new_value := true }) :=
  ⟨(set_value_overload_guard_spec Meter.init 1 4).1 (by norm_num [MAX_FORCE]),
   (set_value_overload_guard_spec Meter.init 1 1).2 (by norm_num [MAX_FORCE])⟩

/-- C4: evaluation of the legacy decoder (`threaded_force_meter.py`) on a
fresh connection receiving the thirteen bytes `1230.0000.000`, which
contain no minus sign.  The decoder publishes the sample 0.0
(`new_value = true`, `_value = some 0`) while `ready` is still false —
a sample is published before alignment, contradicting the claim (and the
file's own alignment comment); the ender_fdm variant adds the
`self.ready and` guard that prevents exactly this. -/
theorem legacy_decoder_publishes_before_alignment :
    Legacy.data_received Legacy.Meter.init cexBytes =
      (false, { buffer := [48], _value := some 0, new_value := true, ready := false }) := by
  with_unfolding_all decide

/-- C5: evaluation of the step update of `move_to_zero` starting from
twice the default fine increment.  The third applied step is 1/40, which
is strictly below `MIN_Z_MOVE`: `min(inc / 2, MIN_Z_MOVE)` caps the step
from above and halves without a floor, so the step does drop below the
configured minimum. -/
theorem move_to_zero_step_drops_below_min :
    move_to_zero_step (move_to_zero_step (move_to_zero_step (2 * (1 / 10 : Rat)))) = 1 / 40 ∧
    (1 / 40 : Rat) < MIN_Z_MOVE := by
  with_unfolding_all decide

/-- C2: evaluation of the main careful-test stepping loop entered after
the minimum displacement, with test direction UP, previous sampled force
-1 (nonzero, classified DOWN, i.e. opposing the test direction),
displacement 1 and `stop_after` 3.  The guard
`(f != 0 or samedir(direction, f))` is true because `f != 0`, so the loop
records two further steps and stops only at the displacement cap — the
opposing-sign sample does not terminate the loop, contradicting the claim
and the comment above the loop in the source. -/
theorem careful_loop_continues_on_opposing_force :
    careful_loop2 oppfeed clock1 1 1 1 Direction.UP 3 10 1 (-1) [] c0 =
      MRes.ok (3, -1,
        [{ timestamp := 0, direction := Direction.UP, force := -1, test_type := "careful",
           z := none, displacement := some 1, testno := 1 },
         { timestamp := 1, direction := Direction.UP, force := -1, test_type := "careful",
           z := none, displacement := some 2, testno := 1 }],
        { idx := 2, st := mst0,
          log := [GCmd.g0 1 none, GCmd.m400, GCmd.g0 1 none, GCmd.m400] }) := by
  with_unfolding_all decide

/-- C8: `move_z` with a zero increment issues no G-code command and
changes no state; with a nonzero increment and a valid direction it issues
the motion command (plus the `M400` wait when waiting) and adds the signed
increment `inc2dir inc d` to the stored position `z` exactly when the
`zeroed` flag is set, leaving `z` unchanged otherwise. -/
theorem move_z_frame_spec (inc : Rat) (d : Direction) (fr : Option Rat) (w : Bool) (c : Ctx) :
    (inc = 0 → move_z inc d fr w c = some c) ∧
    (inc ≠ 0 → d ≠ Direction.STILL →
      move_z inc d fr w c = some
        { c with
            log := c.log ++ [GCmd.g0 (inc2dir inc d) fr] ++ (if w then [GCmd.m400] else []),
            st := { c.st with
                      z := if c.st.zeroed then c.st.z.map (fun zv => zv + inc2dir inc d)
                           else c.st.z } }) := by
  constructor
  · intro h
    simp [move_z, h]
  · intro h1 h2
    simp [move_z, h1, h2]

/-- Witness for C8: the zero-increment no-op on the fresh context and a
1 mm UP move on the zeroed context. -/
theorem move_z_frame_spec_witness :
    move_z 0 Direction.UP none true c0 = some c0 ∧
    move_z 1 Direction.UP none true cZ = some
      { cZ with
          log := cZ.log ++ [GCmd.g0 (inc2dir 1 Direction.UP) none] ++
                 (if true then [GCmd.m400] else []),
          st := { cZ.st with
                    z := if cZ.st.zeroed then cZ.st.z.map (fun zv => zv + inc2dir 1 Direction.UP)
                         else cZ.st.z } } :=
  ⟨(move_z_frame_spec 0 Direction.UP none true c0).1 rfl,
   (move_z_frame_spec 1 Direction.UP none true cZ).2 one_ne_zero (by decide)⟩

/-- C9: `move_to_zero` is idempotent at its fixed point: whenever the
first force reading is exactly 0 the loop body never runs, so no G-code
command is issued, the printer state is unchanged, exactly the one sample
is consumed and the returned moved distance is 0 — for every feed, fuel,
increment argument and starting context. -/
theorem move_to_zero_idempotent_at_zero (f : Nat → Rat) (inc? : Option Rat) (fuel : Nat)
    (c : Ctx) (h : f c.idx = 0) :
    move_to_zero f inc? fuel c = MRes.ok (0, { c with idx := c.idx + 1 }) := by
  simp [move_to_zero, mtz_loop, h]

/-- Witness for C9 on the everywhere-zero feed. -/
theorem move_to_zero_idempotent_at_zero_witness :
    move_to_zero zf none 5 c0 = MRes.ok (0, { c0 with idx := c0.idx + 1 }) :=
  move_to_zero_idempotent_at_zero zf none 5 c0 rfl

/-- Every constant run has length at least one. -/
theorem runlen_pos (f : Nat → Rat) (i : Nat) : 1 ≤ runlen f i := by
  cases i with
  | zero => simp [runlen]
  | succ n =>
    rw [runlen]
    split <;> omega

/-- If no index below `n` completes a run of length `nSame + 1`, the scan
finds nothing below `n`. -/
theorem firstStable_none (nSame : Nat) (f : Nat → Rat) :
    ∀ n, (∀ i, i < n → runlen f i ≤ nSame) → firstStable nSame f n = none := by
  intro n
  induction n with
  | zero => intro _; rfl
  | succ m ih =>
    intro h
    rw [firstStable, ih (fun i hi => h i (Nat.lt_succ_of_lt hi))]
    have hm : runlen f m ≤ nSame := h m (Nat.lt_succ_self m)
    simp only []
    rw [if_neg (by omega)]

/-- Once the scan has found an index it keeps it when extended by one. -/
theorem firstStable_succ (nSame : Nat) (f : Nat → Rat) (n i : Nat)
    (h : firstStable nSame f n = some i) : firstStable nSame f (n + 1) = some i := by
  rw [firstStable, h]

/-- Once the scan has found an index it keeps it under any extension. -/
theorem firstStable_le (nSame : Nat) (f : Nat → Rat) {n m i : Nat} (hnm : n ≤ m)
    (h : firstStable nSame f n = some i) : firstStable nSame f m = some i := by
  induction hnm with
  | refl => exact h
  | step _ ih => exact firstStable_succ nSame f _ i ih

/-- If `j` is the first index completing a run of length `nSame + 1`, the
scan up to `j + 1` finds exactly `j`. -/
theorem firstStable_found (nSame : Nat) (f : Nat → Rat) (j : Nat)
    (h1 : ∀ i, i < j → runlen f i ≤ nSame)
    (h2 : nSame + 1 ≤ runlen f j) : firstStable nSame f (j + 1) = some j := by
  rw [firstStable, firstStable_none nSame f j h1]
  simp only []
  rw [if_pos h2]

/-- Invariant equation for the `stable_force` loop: entered with
`last = f j`, `same = runlen f j - 1` and the next read at `j + 1`, the
loop returns the value at the first index in `[j, j + remaining)` whose
run reaches length `nSame + 1`, and raises — having consumed the sample at
`j + remaining` as well — when there is none. -/
theorem stableGo_spec (nSame : Nat) (f : Nat → Rat) :
    ∀ (remaining : Nat), 1 ≤ remaining → ∀ (j : Nat),
      (∀ i, i < j → runlen f i ≤ nSame) →
      stableGo nSame f remaining (f j) (runlen f j - 1) (j + 1) =
        (match firstStable nSame f (j + remaining) with
         | some i => Except.ok (f i, i + 1)
         | none => Except.error (j + remaining + 1)) := by
  intro remaining
  induction remaining with
  | zero => omega
  | succ m ih =>
    intro _ j hj
    rw [stableGo.eq_def]
    dsimp only
    by_cases hrun : nSame + 1 ≤ runlen f j
    · have hhead : nSame ≤ runlen f j - 1 := by
        have := runlen_pos f j
        omega
      rw [if_pos hhead]
      have hfs : firstStable nSame f (j + (m + 1)) = some j :=
        firstStable_le nSame f (by omega) (firstStable_found nSame f j hj hrun)
      rw [hfs]
    · have hhead : ¬ nSame ≤ runlen f j - 1 := by
        have := runlen_pos f j
        omega
      rw [if_neg hhead]
      have hj' : ∀ i, i < j + 1 → runlen f i ≤ nSame := by
        intro i hi
        rcases Nat.lt_succ_iff_lt_or_eq.mp hi with hi2 | hi2
        · exact hj i hi2
        · subst hi2; omega
      cases m with
      | zero =>
        have hfs : firstStable nSame f (j + 1) = none := firstStable_none nSame f (j + 1) hj'
        rw [hfs]
      | succ r =>
        have hlast : (if f (j + 1) = f j then f j else f (j + 1)) = f (j + 1) := by
          by_cases heq : f (j + 1) = f j
          · simp [heq]
          · simp [heq]
        have hsame : (if f (j + 1) = f j then runlen f j - 1 + 1 else 0)
            = runlen f (j + 1) - 1 := by
          have h1 := runlen_pos f j
          by_cases heq : f (j + 1) = f j
          · rw [if_pos heq, runlen, if_pos heq]
            omega
          · rw [if_neg heq, runlen, if_neg heq]
        rw [hlast, hsame]
        have harith : (j + 1) + (r + 1) = j + (r + 1 + 1) := by omega
        have := ih (by omega) (j + 1) hj'
        rw [harith] at this
        exact this

/-- C1 (amended): full characterisation of `stable_force`.  With
`max_n ≥ 1`, `stable_force n_same max_n` returns the
value of the first constant run of `n_same + 1` consecutive equal samples
(the anchor reading plus `n_same` repeats) that is complete at an index
strictly below `max_n`, together with the next read position; when no such
run exists it raises the `Max samples exceeded` ValueError after consuming
`max_n + 1` samples.  In particular a value observed only `n_same`
consecutive times — or a run completing only at index `max_n` — does not
make the function return. -/
theorem stable_force_first_run_characterization (nSame maxN : Nat) (f : Nat → Rat)
    (hm : 1 ≤ maxN) :
    stable_force nSame maxN f 0 =
      (match firstStable nSame f maxN with
       | some i => Except.ok (f i, i + 1)
       | none => Except.error (maxN + 1)) := by
  have h := stableGo_spec nSame f maxN hm 0 (fun i hi => absurd hi (Nat.not_lt_zero i))
  simp only [Nat.zero_add] at h
  have hr : runlen f 0 - 1 = 0 := by simp [runlen]
  rw [hr] at h
  exact h

/-- Witness for C1 (amended) on the feed with four equal samples: the
first run of length 4 completes at index 3, so `stable_force 3 20`
returns 5 with the next read position 4. -/
theorem stable_force_first_run_characterization_witness :
    stable_force 3 20 wfeed 0 =
      (match firstStable 3 wfeed 20 with
       | some i => Except.ok (wfeed i, i + 1)
       | none => Except.error (20 + 1)) :=
  stable_force_first_run_characterization 3 20 wfeed (by decide)

/-- C1 (counterexample): on the feed reading 5, 5, 5 and then pairwise
distinct noise, the value 5 is observed `n_same = 3` consecutive times
well within the first `max_n = 20` samples, yet `stable_force 3 20`
raises the `Max samples exceeded` ValueError (the code demands `n_same`
repeats after an anchor, i.e. 4 equal consecutive samples). -/
theorem stable_force_needs_extra_sample :
    cex1 0 = 5 ∧ cex1 1 = 5 ∧ cex1 2 = 5 ∧
    stable_force 3 20 cex1 0 = Except.error 21 := by
  refine ⟨rfl, rfl, rfl, ?_⟩
  rw [stable_force]
  repeat (rw [stableGo.eq_def]; norm_num [cex1])

/-- For a valid direction, `move_z` always succeeds and never touches the
feed index. -/
theorem move_z_idx (inc : Rat) (d : Direction) (fr : Option Rat) (w : Bool) (c : Ctx)
    (hd : d ≠ STILL) : ∃ c2, move_z inc d fr w c = some c2 ∧ c2.idx = c.idx := by
  by_cases h : inc = 0
  · exact ⟨c, by simp [move_z, h], rfl⟩
  · refine ⟨{ c with
        log := c.log ++ [GCmd.g0 (inc2dir inc d) fr] ++ (if w then [GCmd.m400] else []),
        st := { c.st with
                  z := if c.st.zeroed then c.st.z.map (fun zv => zv + inc2dir inc d)
                       else c.st.z } }, ?_, rfl⟩
    simp [move_z, h, hd]

/-- Run lemma for the smooth-test sampling loop: if the last recorded
force matches the test direction, the next `m - 1` feed samples match it
and the `m`-th differs, the loop appends exactly `m` rows (one per sample
read) and stops. -/
theorem smooth_loop_run (f ts : Nat → Rat) (d : Direction) (tn : Int) :
    ∀ (m fu : Nat) (lastF : Rat) (data : List TestResult) (c : Ctx),
      force2dir lastF = d →
      (∀ i, i + 1 < m → force2dir (f (c.idx + i)) = d) →
      force2dir (f (c.idx + (m - 1))) ≠ d →
      1 ≤ m → m ≤ fu →
      smooth_loop f ts d tn fu lastF data c =
        MRes.ok (data ++ (List.range m).map (fun i =>
          { timestamp := ts (c.idx + i), direction := d, force := f (c.idx + i),
            test_type := "smooth", z := none, displacement := none, testno := tn }),
          { c with idx := c.idx + m }) := by
  intro m
  induction m with
  | zero => omega
  | succ k ih =>
    intro fu lastF data c hdir hruns hstop _ hfu
    cases fu with
    | zero => omega
    | succ fv =>
      rw [smooth_loop.eq_def]
      dsimp only
      rw [if_pos hdir]
      cases k with
      | zero =>
        have hstop0 : force2dir (f (c.idx + 0)) ≠ d := by simpa using hstop
        rw [smooth_loop.eq_def]
        dsimp only
        rw [if_neg (by simpa using hstop0)]
        simp [List.range_succ]
      | succ r =>
        have hdir0 : force2dir (f c.idx) = d := by
          have := hruns 0 (by omega)
          simpa using this
        have h3 : ∀ i, i + 1 < r + 1 →
            force2dir (f ({ c with idx := c.idx + 1 }.idx + i)) = d := by
          intro i hi
          have harg : c.idx + 1 + i = c.idx + (i + 1) := by omega
          show force2dir (f (c.idx + 1 + i)) = d
          rw [harg]
          exact hruns (i + 1) (by omega)
        have h4 : force2dir (f ({ c with idx := c.idx + 1 }.idx + (r + 1 - 1))) ≠ d := by
          have harg : c.idx + 1 + (r + 1 - 1) = c.idx + (r + 2 - 1) := by omega
          show force2dir (f (c.idx + 1 + (r + 1 - 1))) ≠ d
          rw [harg]
          exact hstop
        have hres := ih fv (f c.idx)
          (data ++ [{ timestamp := ts c.idx, direction := d, force := f c.idx,
                      test_type := "smooth", z := none, displacement := none, testno := tn }])
          { c with idx := c.idx + 1 }
          hdir0 h3 h4 (by omega) (by omega)
        rw [hres]
        have hidx : c.idx + 1 + (r + 1) = c.idx + (r + 1 + 1) := by omega
        have hlist :
            (data ++ [{ timestamp := ts c.idx, direction := d, force := f c.idx,
                        test_type := "smooth", z := none, displacement := none,
                        testno := tn }]) ++
              (List.range (r + 1)).map (fun i =>
                ({ timestamp := ts (c.idx + 1 + i), direction := d,
                   force := f (c.idx + 1 + i), test_type := "smooth", z := none,
                   displacement := none, testno := tn } : TestResult)) =
            data ++ (List.range (r + 1 + 1)).map (fun i =>
              ({ timestamp := ts (c.idx + i), direction := d, force := f (c.idx + i),
                 test_type := "smooth", z := none, displacement := none,
                 testno := tn } : TestResult)) := by
          rw [List.append_assoc]
          conv_rhs => rw [List.range_succ_eq_map]
          have hshift : ∀ a : Nat, c.idx + 1 + a = c.idx + (a + 1) := fun a => by omega
          simp [Function.comp, hshift, Nat.succ_eq_add_one]
        rw [hidx, hlist]

/-- C6: smooth (continuous) test.  For every sample feed whose classified
direction first differs from the commanded test direction at feed index
`k` (the initial row reads sample 0; `k = 0` means the very first sample
already differs), the test returns normally with exactly `k + 2` recorded
rows — the initial row, the `k` in-motion rows, and the final confirmatory
row — and the final row's displacement is the commanded signed target
displacement `inc2dir target d`. -/
theorem smooth_move_test_trace_length (f ts : Nat → Rat) (now target feedrate : Rat)
    (d : Direction) (tn : Int) (k fuel : Nat) (c : Ctx)
    (hd : d ≠ Direction.STILL)
    (hrun : ∀ i, i < k → force2dir (f (c.idx + i)) = d)
    (hflip : force2dir (f (c.idx + k)) ≠ d)
    (hfuel : k ≤ fuel) :
    ∃ (data : List TestResult) (c2 : Ctx),
      smooth_move_test f ts now target d false feedrate tn false fuel c =
        MRes.ok (data, c2) ∧
      data.length = k + 2 ∧
      data.getLast?.map TestResult.displacement = some (some (inc2dir target d)) := by
  obtain ⟨cm, hcm, hcmidx⟩ :=
    move_z_idx (inc2dir target d) d (some feedrate) false { c with idx := c.idx + 1 } hd
  rcases Nat.eq_zero_or_pos k with hk0 | hkpos
  · subst hk0
    have hflip0 : force2dir (f c.idx) ≠ d := by simpa using hflip
    have hloop : smooth_loop f ts d tn fuel (f c.idx)
        [{ timestamp := now, direction := d, force := f c.idx, test_type := "smooth",
           z := c.st.z, displacement := some 0, testno := tn }] cm =
        MRes.ok ([{ timestamp := now, direction := d, force := f c.idx,
                    test_type := "smooth", z := c.st.z, displacement := some 0,
                    testno := tn }], cm) := by
      rw [smooth_loop.eq_def]
      dsimp only
      rw [if_neg hflip0]
    simp only [smooth_move_test]
    rw [if_neg Bool.false_ne_true]
    dsimp only
    rw [hcm]
    dsimp only
    rw [hloop]
    dsimp only
    rw [if_neg Bool.false_ne_true]
    exact ⟨_, _, rfl, by simp, by simp [List.getLast?_concat]⟩
  · have hd0 : force2dir (f c.idx) = d := by
      have := hrun 0 hkpos
      simpa using this
    have hruns' : ∀ i, i + 1 < k → force2dir (f (cm.idx + i)) = d := by
      intro i hi
      rw [hcmidx]
      show force2dir (f (c.idx + 1 + i)) = d
      have harg : c.idx + 1 + i = c.idx + (i + 1) := by omega
      rw [harg]
      exact hrun (i + 1) (by omega)
    have hstop' : force2dir (f (cm.idx + (k - 1))) ≠ d := by
      rw [hcmidx]
      show force2dir (f (c.idx + 1 + (k - 1))) ≠ d
      have harg : c.idx + 1 + (k - 1) = c.idx + k := by omega
      rw [harg]
      exact hflip
    have hloop := smooth_loop_run f ts d tn k fuel (f c.idx)
      [{ timestamp := now, direction := d, force := f c.idx, test_type := "smooth",
         z := c.st.z, displacement := some 0, testno := tn }] cm
      hd0 hruns' hstop' hkpos hfuel
    simp only [smooth_move_test]
    rw [if_neg Bool.false_ne_true]
    dsimp only
    rw [hcm]
    dsimp only
    rw [hloop]
    dsimp only
    rw [if_neg Bool.false_ne_true]
    refine ⟨_, _, rfl, ?_, ?_⟩
    · simp
    · rw [List.getLast?_concat]
      rfl

/-- Witness for C6: on the feed reading -1 then 1, testing DOWN with
target 2, the direction flips at sample index 1 and the trace has
1 + 2 = 3 rows, the last at displacement `inc2dir 2 DOWN`. -/
theorem smooth_move_test_trace_length_witness :
    ∃ (data : List TestResult) (c2 : Ctx),
      smooth_move_test sfeed clock1 0 2 Direction.DOWN false 180 1 false 5 c0 =
        MRes.ok (data, c2) ∧
      data.length = 1 + 2 ∧
      data.getLast?.map TestResult.displacement = some (some (inc2dir 2 Direction.DOWN)) :=
  smooth_move_test_trace_length sfeed clock1 0 2 180 Direction.DOWN 1 1 5 c0
    (by decide)
    (fun i hi => by
      have hi0 : i = 0 := by omega
      subst hi0
      norm_num [sfeed, force2dir, c0, mst0])
    (by norm_num [sfeed, force2dir, c0, mst0]; decide)
    (by omega)

/-- On the everywhere-zero feed the initial stabilization read of
`move_z_until` succeeds after four samples with value 0. -/
theorem stable_force_zf (idx : Nat) : stable_force 3 20 zf idx = Except.ok (0, idx + 4) := by
  with_unfolding_all rfl

/-- On the everywhere-zero feed with no maximum travel, the fast loop of
`move_z_until` testing `nonzeroeps` never exits and never raises: for
every fuel it is still running. -/
theorem until_loop_zf (inc : Rat) :
    ∀ (fuel : Nat) (dist : Rat) (c : Ctx),
      (until_loop zf inc Direction.DOWN nonzeroeps none false fuel dist 0 c).isMore = true := by
  have h1 : nonzeroeps (0 : Rat) = false := by with_unfolding_all rfl
  have h2 : force_too_high (0 : Rat) = false := by with_unfolding_all rfl
  intro fuel
  induction fuel with
  | zero =>
    intro dist c
    rw [until_loop.eq_def]
    dsimp only
    simp only [le_max_move, h1, h2, Bool.not_false, Bool.and_true, if_true,
      Bool.false_eq_true, if_false]
    rfl
  | succ fv ih =>
    intro dist c
    rw [until_loop.eq_def]
    dsimp only
    simp only [le_max_move, h1, h2, Bool.not_false, Bool.and_true, if_true,
      Bool.false_eq_true, if_false]
    obtain ⟨c2, hc2, _⟩ := move_z_idx inc Direction.DOWN none true c (by decide)
    rw [hc2]
    exact ih (dist + inc) { c2 with idx := c2.idx + 1 }

/-- C7 (amended): the coarse approach of zeroing is not travel-bounded:
`zero_z_axis` calls `move_z_until` with the default `max_move = ∞`
(`none`), and on a feed that never leaves zero the approach loop keeps
moving for every amount of fuel, raising nothing — in particular no
ZeroingFailed.  What the code does raise is the
`Stopped zeroing but force is 0` ValueError, which fires only when the
approach loop has exited (a nonzero-eps reading was seen) and the force
then reads stably zero again, as the concrete `cfeed` run shows. -/
theorem coarse_approach_amended :
    (∀ (fuel : Nat) (c : Ctx),
        (move_z_until zf c.st.coarse_inc Direction.DOWN nonzeroeps none fuel c).isMore
          = true) ∧
    zero_z_axis cfeed Direction.DOWN true 100 c0 =
      MRes.raise "Stopped zeroing but force is 0" := by
  constructor
  · intro fuel c
    rw [move_z_until]
    rw [if_neg (by decide : ¬ (Direction.DOWN = Direction.STILL))]
    simp only [stable_force_zf]
    have h := until_loop_zf (inc2dir c.st.coarse_inc Direction.DOWN) fuel 0
      { c with idx := c.idx + 4 }
    rcases heq : until_loop zf (inc2dir c.st.coarse_inc Direction.DOWN) Direction.DOWN
        nonzeroeps none false fuel 0 0 { c with idx := c.idx + 4 } with a | msg | a
    · rw [heq] at h
      simp [MRes.isMore] at h
    · rw [heq] at h
      simp [MRes.isMore] at h
    · rcases a with ⟨dist, force, cc⟩
      rfl
  · with_unfolding_all decide

/-- Exact unrolling of the fast `move_z_until` loop on the everywhere-zero
feed with no maximum travel: after `fuel` iterations the loop is still
running, has accumulated `fuel * inc` of travel, consumed one sample per
step and issued one motion command (plus `M400`) per step. -/
theorem until_loop_zf_full (inc : Rat) (hinc : inc ≠ 0) :
    ∀ (fuel : Nat) (dist : Rat) (c : Ctx), c.st.zeroed = false →
      until_loop zf inc Direction.DOWN nonzeroeps none false fuel dist 0 c =
        MRes.more (dist + fuel * inc, 0,
          { c with idx := c.idx + fuel,
                   log := c.log ++
                     (List.replicate fuel [GCmd.g0 (inc2dir inc Direction.DOWN) none,
                        GCmd.m400]).flatten }) := by
  have h1 : nonzeroeps (0 : Rat) = false := by with_unfolding_all rfl
  have h2 : force_too_high (0 : Rat) = false := by with_unfolding_all rfl
  intro fuel
  induction fuel with
  | zero =>
    intro dist c _
    rw [until_loop.eq_def]
    dsimp only
    simp only [le_max_move, h1, h2, Bool.not_false, Bool.and_true, if_true,
      Bool.false_eq_true, if_false]
    simp
  | succ fv ih =>
    intro dist c hzr
    obtain ⟨cidx, cst, clog⟩ := c
    obtain ⟨cz, czr, cfi, cci⟩ := cst
    simp only [] at hzr
    subst hzr
    rw [until_loop.eq_def]
    dsimp only
    simp only [le_max_move, h1, h2, Bool.not_false, Bool.and_true, if_true,
      Bool.false_eq_true, if_false]
    have hmz : move_z inc Direction.DOWN none true
        ⟨cidx, ⟨cz, false, cfi, cci⟩, clog⟩ = some
        ⟨cidx, ⟨cz, false, cfi, cci⟩,
          clog ++ [GCmd.g0 (inc2dir inc Direction.DOWN) none] ++ [GCmd.m400]⟩ := by
      simp [move_z, hinc]
    rw [hmz]
    dsimp only
    simp only [zf]
    rw [ih (dist + inc)
      ⟨cidx + 1, ⟨cz, false, cfi, cci⟩,
        clog ++ [GCmd.g0 (inc2dir inc Direction.DOWN) none] ++ [GCmd.m400]⟩ rfl]
    simp only [MRes.more.injEq, Prod.mk.injEq, Ctx.mk.injEq]
    refine ⟨by push_cast; ring, trivial, by omega, trivial,
      by simp [List.replicate_succ, List.append_assoc]⟩

/-- Closed-form outcome of the coarse-approach call on the everywhere-zero
feed from the fresh context: after any number `fuel` of loop iterations
the call is still running (`more`), with `fuel` motion commands issued and
`fuel * inc2dir (1/2) DOWN` of signed travel accumulated. -/
theorem move_z_until_zf (fuel : Nat) :
    move_z_until zf (1 / 2) Direction.DOWN nonzeroeps none fuel c0 =
      MRes.more (0 + fuel * inc2dir (1 / 2) Direction.DOWN,
        { idx := c0.idx + 4 + fuel, st := c0.st,
          log := c0.log ++ (List.replicate fuel
            [GCmd.g0 (inc2dir (inc2dir (1 / 2) Direction.DOWN) Direction.DOWN) none,
             GCmd.m400]).flatten }) := by
  rw [move_z_until]
  rw [if_neg (by decide : ¬ (Direction.DOWN = Direction.STILL))]
  simp only [stable_force_zf]
  rw [until_loop_zf_full (inc2dir (1 / 2) Direction.DOWN)
    (by norm_num [inc2dir, Direction.sign]) fuel 0 { c0 with idx := c0.idx + 4 } rfl]

/-- C7 (counterexample): the coarse-approach call — `move_z_until` with
the coarse increment 0.5, test `nonzeroeps` and the default
`max_move = float('inf')` — on the everywhere-zero feed (no contact is
ever made) is still inside its stepping loop after 1000 iterations,
having travelled 500 mm downwards, far beyond any bounded travel (the
same file caps `move_to_zero` at 5 mm), and has raised no error.  This
refutes the claim that the coarse approach is bounded and that exhausting
a travel bound raises ZeroingFailed. -/
theorem coarse_approach_unbounded_cex :
    (move_z_until zf (1 / 2) Direction.DOWN nonzeroeps none 1000 c0).isMore = true ∧
    mzu_dist (move_z_until zf (1 / 2) Direction.DOWN nonzeroeps none 1000 c0) =
      some (-500) := by
  rw [move_z_until_zf 1000]
  refine ⟨rfl, ?_⟩
  show some ((0 : Rat) + (1000 : Nat) * inc2dir (1 / 2) Direction.DOWN) = some (-500)
  have habs : |(1 : Rat) / 2| = 1 / 2 := abs_of_pos (by norm_num)
  norm_num [inc2dir, Direction.sign, habs]

/-- Sum bound for lists of readings all strictly below a magnitude. -/
theorem list_sum_abs_lt (B : Rat) :
    ∀ (l : List Rat), l ≠ [] → (∀ v ∈ l, |v| < B) → |l.sum| < l.length * B := by
  intro l
  induction l with
  | nil => intro h; exact absurd rfl h
  | cons a t ih =>
    intro _ hv
    cases t with
    | nil => simpa using hv a (by simp)
    | cons b t2 =>
      have ht : |(b :: t2).sum| < (b :: t2).length * B :=
        ih (by simp) (fun v hv2 => hv v (List.mem_cons_of_mem a hv2))
      have ha : |a| < B := hv a (List.mem_cons_self a (b :: t2))
      calc |(a :: b :: t2).sum| = |a + (b :: t2).sum| := by simp
        _ ≤ |a| + |(b :: t2).sum| := abs_add _ _
        _ < B + (b :: t2).length * B := add_lt_add ha ht
        _ = (a :: b :: t2).length * B := by
            simp [List.length_cons]
            ring

/-- C10: every force value the consumer can obtain from the ender_fdm
decoder is strictly below `MAX_FORCE = 3.5` in magnitude — the setter
publishes a value (and `get_force`/`get_tsforce` hand it on) only when
`|v| < MAX_FORCE`, and the average of any nonempty block of such readings
(`avg_force`) stays strictly below the bound — and consequently the
in-loop abort test `abs(force) > 4.9` of `move_z_until`
(`force_too_high`) is false on every such value: that branch is
unreachable for decoder-supplied samples. -/
theorem decoder_values_below_overload_guard :
    (∀ (m : Meter) (now v : Rat) (m2 : Meter),
        set_value m now v = (false, m2) →
        m2._value = some v ∧ |v| < MAX_FORCE ∧ force_too_high v = false) ∧
    (∀ (f : Nat → Rat) (n idx : Nat), 1 ≤ n → (∀ i, |f i| < MAX_FORCE) →
        |(avg_force f n idx).1| < MAX_FORCE ∧
        force_too_high (avg_force f n idx).1 = false) := by
  have hguard : ∀ v : Rat, |v| < MAX_FORCE → force_too_high v = false := by
    intro v hv
    have : ¬ ((49 : Rat) / 10 < |v|) := by
      rw [MAX_FORCE] at hv
      intro hcon
      linarith
    simpa [force_too_high] using this
  constructor
  · intro m now v m2 h
    rw [set_value] at h
    by_cases hb : MAX_FORCE ≤ |v|
    · rw [if_pos hb] at h
      exact absurd (congrArg Prod.fst h) (by simp)
    · rw [if_neg hb] at h
      have hv : |v| < MAX_FORCE := not_le.mp hb
      have h2 := congrArg Prod.snd h
      simp only [] at h2
      refine ⟨?_, hv, hguard v hv⟩
      rw [← h2]
  · intro f n idx hn hall
    have hlen : ((List.range n).map (fun k => f (idx + k))).length = n := by simp
    have hne : (List.range n).map (fun k => f (idx + k)) ≠ [] := by
      intro hcon
      have := congrArg List.length hcon
      rw [hlen] at this
      simp at this
      omega
    have hmem : ∀ v ∈ (List.range n).map (fun k => f (idx + k)), |v| < MAX_FORCE := by
      intro v hv
      rcases List.mem_map.mp hv with ⟨k, _, rfl⟩
      exact hall (idx + k)
    have hsum := list_sum_abs_lt MAX_FORCE _ hne hmem
    rw [hlen] at hsum
    have hnpos : (0 : Rat) < (n : Rat) := by
      have : (0 : Nat) < n := hn
      exact_mod_cast this
    have havg : |(avg_force f n idx).1| < MAX_FORCE := by
      rw [avg_force]
      simp only [hlen]
      rw [abs_div, abs_of_pos hnpos, div_lt_iff₀ hnpos]
      calc |((List.range n).map (fun k => f (idx + k))).sum| < n * MAX_FORCE := hsum
        _ = MAX_FORCE * n := by ring
    exact ⟨havg, hguard _ havg⟩

/-- Witness for C10: publication of the value 1 on the fresh meter, and a
three-sample average on the constant feed 1. -/
theorem decoder_values_below_overload_guard_witness :
    (mPub._value = some 1 ∧ |(1 : Rat)| < MAX_FORCE ∧ force_too_high 1 = false) ∧
    (|(avg_force (fun _ => (1 : Rat)) 3 0).1| < MAX_FORCE ∧
      force_too_high (avg_force (fun _ => (1 : Rat)) 3 0).1 = false) :=
  ⟨decoder_values_below_overload_guard.1 Meter.init 1 1 mPub
      (by norm_num [set_value, MAX_FORCE, mPub, Meter.init]),
   decoder_values_below_overload_guard.2 (fun _ => (1 : Rat)) 3 0 (by norm_num)
      (fun i => by norm_num [MAX_FORCE])⟩

end ForceDisp
